import Mathlib

/-!
Shallow embedding of the 1A2B ("Bulls and Cows") game implementation
(`create_a_1a2b_game.py`): secret rendering, guess evaluation, request
validation, the `/guess` endpoint body, and the body of the terminal loop.

Python strings are modelled as `List Char`; a raised exception is the
`Except.error` branch of `Except String`.
-/

namespace Game1A2B

/-- One iteration of the scoring loop inside `evaluate_guess`:
`if secret_digit == guess_digit: count_a += 1`
`elif guess_digit in secret_digits: count_b += 1`. -/
def scoreStep (secret_digits : List Char) (counts : Nat × Nat) (p : Char × Char) : Nat × Nat :=
  if p.1 = p.2 then (counts.1 + 1, counts.2)
  else if p.2 ∈ secret_digits then (counts.1, counts.2 + 1)
  else counts

/-- `evaluate_guess(secret_number, guess)`: raises `ValueError` unless both
strings have length 4, then folds the positional comparison over
`zip(secret_digits, guess_digits)` starting from `count_a = count_b = 0`. -/
def evaluate_guess (secret_number guess : List Char) : Except String (Nat × Nat) :=
  if secret_number.length ≠ 4 ∨ guess.length ≠ 4 then
    Except.error "Both secret_number and guess must be 4 digits long."
  else
    Except.ok ((secret_number.zip guess).foldl (scoreStep secret_number) (0, 0))

/-- Number of positions at which secret and guess hold the same character. -/
def countA (secret guess : List Char) : Nat :=
  (secret.zip guess).countP (fun p => decide (p.1 = p.2))

/-- Number of positions at which the characters differ but the guess
character occurs somewhere in the secret. -/
def countB (secret guess : List Char) : Nat :=
  (secret.zip guess).countP (fun p => decide (p.1 ≠ p.2 ∧ p.2 ∈ secret))

/-- Spec-side count, following the claim's wording: the number of indices
`i` in `0..3` with `secret[i] == guess[i]`. -/
def posCountA (secret guess : List Char) : Nat :=
  (List.range 4).countP (fun i => decide (secret.getD i ' ' = guess.getD i ' '))

/-- Spec-side count, following the claim's wording: the number of indices
`i` in `0..3` with `secret[i] != guess[i]` but `guess[i]` occurring
somewhere in the secret. -/
def posCountB (secret guess : List Char) : Nat :=
  (List.range 4).countP
    (fun i => decide (secret.getD i ' ' ≠ guess.getD i ' ' ∧ guess.getD i ' ' ∈ secret))

/-- A well-formed code string: exactly 4 characters, all decimal digits,
pairwise distinct. -/
def validCode (s : List Char) : Prop :=
  s.length = 4 ∧ (∀ c ∈ s, c.isDigit) ∧ s.Nodup

instance validCode.decPred : DecidablePred validCode := fun s => by
  unfold validCode; infer_instance

/-- Body of the `/guess` endpoint (`evaluate_guess_endpoint`): fast path
returning `(4, 0)` when `secret == guess`, otherwise `evaluate_guess`;
a `ValueError` is re-raised as an HTTP 400 error, modelled as the error
branch. -/
def evaluate_guess_endpoint (secret guess : List Char) : Except String (Nat × Nat) :=
  if secret = guess then Except.ok (4, 0)
  else evaluate_guess secret guess

/-- The `Field` shape constraints on `GuessRequest.secret` and
`GuessRequest.guess`: `min_length=4`, `max_length=4` and a pattern of
exactly four decimal digits. -/
def fieldShapeOk (v : List Char) : Bool :=
  v.length == 4 && v.all Char.isDigit

/-- The `digits_must_be_unique` validator of `GuessRequest`: raises
`ValueError` unless `len(set(value)) == len(value)`. The number of distinct
characters of a string is the length of its deduplication. -/
def digits_must_be_unique (v : List Char) : Except String (List Char) :=
  if v.dedup.length ≠ v.length then
    Except.error "Digits must be unique in secret and guess numbers."
  else Except.ok v

/-- Pydantic validation of one `GuessRequest` field: the `Field` shape
constraints, then the uniqueness validator. -/
def validateField (v : List Char) : Except String (List Char) :=
  if ¬ fieldShapeOk v then
    Except.error "String should match the four-digit pattern."
  else digits_must_be_unique v

/-- The `/guess` boundary: the `GuessRequest` payload is validated field by
field before the endpoint body runs; a validation failure is returned as an
error without producing a score. -/
def guess_request_pipeline (secret guess : List Char) : Except String (Nat × Nat) :=
  match validateField secret with
  | Except.error e => Except.error e
  | Except.ok s =>
    match validateField guess with
    | Except.error e => Except.error e
    | Except.ok g => evaluate_guess_endpoint s g

/-- Rendering step of `generate_secret_number`:
`"".join(map(str, digits))` applied to the sampled digits. -/
def render_digits (digits : List Nat) : List Char :=
  digits.map Nat.digitChar

/-- Contract of `random.sample(range(10), 4)` in `generate_secret_number`:
a 4-element sample of pairwise-distinct values drawn from `{0, ..., 9}`. -/
def sampleOk (digits : List Nat) : Prop :=
  digits.length = 4 ∧ digits.Nodup ∧ ∀ d ∈ digits, d < 10

/-- Python `str.isdigit`: the string is non-empty and every character is a
digit. -/
def str_isdigit (s : List Char) : Bool :=
  !s.isEmpty && s.all Char.isDigit

/-- The `Result: {a}A{b}B` line printed by the terminal loop. -/
def resultLine (a b : Nat) : String :=
  "Result: " ++ toString a ++ "A" ++ toString b ++ "B"

/-- The completion message printed by the terminal loop when the guess is
fully correct. -/
def winLine (attempts : Nat) : String :=
  "Congratulations! You guessed the secret number in " ++ toString attempts ++ " attempts."

/-- Observable outcome of one iteration of the `play_game` loop: the
attempt counter after the iteration, the lines printed during it, and
whether the loop breaks. -/
structure StepOut where
  attempts : Nat
  lines : List String
  finished : Bool
deriving DecidableEq

/-- One iteration of the `while True` loop of `play_game`, given the
current attempt count and the line read from input: input that is not
4 characters, not all digits, or without 4 distinct characters is rejected
and re-prompted without consuming an attempt; valid input increments the
counter, scores the guess, prints the result line and breaks on `a == 4`.
An uncaught `ValueError` from `evaluate_guess` is the error branch. -/
def play_step (secret : List Char) (attempts : Nat) (guess : List Char) :
    Except String StepOut :=
  if guess.length ≠ 4 ∨ ¬ str_isdigit guess ∨ guess.dedup.length ≠ 4 then
    Except.ok ⟨attempts, ["Invalid input. Please enter four unique digits."], false⟩
  else
    match evaluate_guess secret guess with
    | Except.error e => Except.error e
    | Except.ok (a, b) =>
      if a = 4 then
        Except.ok ⟨attempts + 1, [resultLine a b, winLine (attempts + 1)], true⟩
      else
        Except.ok ⟨attempts + 1, [resultLine a b], false⟩

end Game1A2B

namespace Game1A2B

theorem foldl_scoreStep (sd : List Char) (l : List (Char × Char)) (a b : Nat) :
    l.foldl (scoreStep sd) (a, b) =
      (a + l.countP (fun p => decide (p.1 = p.2)),
       b + l.countP (fun p => decide (p.1 ≠ p.2 ∧ p.2 ∈ sd))) := by
  induction l generalizing a b with
  | nil => simp
  | cons x xs ih =>
    rw [List.foldl_cons]
    by_cases h1 : x.1 = x.2
    · simp only [scoreStep, if_pos h1, ih, List.countP_cons]
      simp [h1]
      omega
    · by_cases h2 : x.2 ∈ sd
      · simp only [scoreStep, if_neg h1, if_pos h2, ih, List.countP_cons]
        simp [h1, h2]
        omega
      · simp only [scoreStep, if_neg h1, if_neg h2, ih, List.countP_cons]
        simp [h1, h2]

theorem evaluate_guess_ok (s g : List Char) (hs : s.length = 4) (hg : g.length = 4) :
    evaluate_guess s g = Except.ok (countA s g, countB s g) := by
  unfold evaluate_guess
  rw [if_neg (by omega)]
  rw [foldl_scoreStep]
  simp [countA, countB]

theorem countP_split (sd : List Char) (l : List (Char × Char)) (h : ∀ p ∈ l, p.1 ∈ sd) :
    l.countP (fun p => decide (p.2 ∈ sd)) =
      l.countP (fun p => decide (p.1 = p.2)) +
        l.countP (fun p => decide (p.1 ≠ p.2 ∧ p.2 ∈ sd)) := by
  induction l with
  | nil => simp
  | cons x xs ih =>
    have hx : x.1 ∈ sd := h x (List.mem_cons_self x xs)
    have hxs : ∀ p ∈ xs, p.1 ∈ sd := fun p hp => h p (List.mem_cons_of_mem x hp)
    rw [List.countP_cons, List.countP_cons, List.countP_cons, ih hxs]
    by_cases h1 : x.1 = x.2
    · have h2 : x.2 ∈ sd := h1 ▸ hx
      simp [h1, h2]
      omega
    · by_cases h2 : x.2 ∈ sd
      · simp [h1, h2]
        omega
      · simp [h1, h2]

theorem countA_add_countB (s g : List Char) :
    countA s g + countB s g = (s.zip g).countP (fun p => decide (p.2 ∈ s)) := by
  rw [countP_split s (s.zip g)
    (fun p hp => (List.of_mem_zip (show (p.1, p.2) ∈ s.zip g by simpa using hp)).1)]
  rfl

theorem zip_mem_countP (s g : List Char) (h : g.length ≤ s.length) :
    (s.zip g).countP (fun p => decide (p.2 ∈ s)) = g.countP (fun c => decide (c ∈ s)) := by
  conv_rhs => rw [← List.map_snd_zip s g h]
  rw [List.countP_map]
  rfl

theorem nodup_countP_mem (s g : List Char) (hgn : g.Nodup) :
    g.countP (fun c => decide (c ∈ s)) = (g.toFinset ∩ s.toFinset).card := by
  rw [List.countP_eq_length_filter,
    ← List.toFinset_card_of_nodup (hgn.filter (fun c => decide (c ∈ s))),
    List.toFinset_filter]
  congr 1
  rw [← Finset.filter_mem_eq_inter]
  apply Finset.filter_congr
  intro x _
  simp

theorem countA_comm (s g : List Char) : countA s g = countA g s := by
  unfold countA
  rw [← List.zip_swap g s, List.countP_map]
  apply List.countP_congr
  intro p _
  simp [eq_comm]

theorem countB_comm (s g : List Char) (hlen : s.length = g.length)
    (hsn : s.Nodup) (hgn : g.Nodup) : countB s g = countB g s := by
  have h1 := countA_add_countB s g
  have h2 := countA_add_countB g s
  rw [zip_mem_countP s g (le_of_eq hlen.symm), nodup_countP_mem s g hgn] at h1
  rw [zip_mem_countP g s (le_of_eq hlen), nodup_countP_mem g s hsn] at h2
  have h3 : countA s g = countA g s := countA_comm s g
  have h4 : (g.toFinset ∩ s.toFinset).card = (s.toFinset ∩ g.toFinset).card := by
    rw [Finset.inter_comm]
  omega

theorem length_four (s : List Char) (h : s.length = 4) :
    ∃ a b c d, s = [a, b, c, d] := by
  rcases s with _ | ⟨a, s⟩
  · simp at h
  rcases s with _ | ⟨b, s⟩
  · simp at h
  rcases s with _ | ⟨c, s⟩
  · simp at h
  rcases s with _ | ⟨d, s⟩
  · simp at h
  rcases s with _ | ⟨e, s⟩
  · exact ⟨a, b, c, d, rfl⟩
  · simp at h

theorem evaluate_guess_self (s : List Char) (hs : s.length = 4) :
    evaluate_guess s s = Except.ok (4, 0) := by
  obtain ⟨a, b, c, d, rfl⟩ := length_four s hs
  simp [evaluate_guess, scoreStep]

/-- C1: for all 4-character strings `secret` and `guess`, `evaluate_guess`
returns `(A, B)` where `A` is the number of positions `i` in `0..3` with
`secret[i] == guess[i]` and `B` is the number of positions `i` with
`secret[i] != guess[i]` but `guess[i]` occurring somewhere in `secret`. -/
theorem claim_C1 (secret guess : List Char)
    (hs : secret.length = 4) (hg : guess.length = 4) :
    evaluate_guess secret guess =
      Except.ok (posCountA secret guess, posCountB secret guess) := by
  rw [evaluate_guess_ok secret guess hs hg]
  obtain ⟨a, b, c, d, rfl⟩ := length_four secret hs
  obtain ⟨e, f, u, v, rfl⟩ := length_four guess hg
  simp [countA, countB, posCountA, posCountB, show List.range 4 = [0, 1, 2, 3] from rfl,
    List.countP_cons]

theorem claim_C1_witness :
    (['1', '2', '3', '4'] : List Char).length = 4 ∧
      (['1', '2', '4', '3'] : List Char).length = 4 ∧
      evaluate_guess ['1', '2', '3', '4'] ['1', '2', '4', '3'] =
        Except.ok (posCountA ['1', '2', '3', '4'] ['1', '2', '4', '3'],
          posCountB ['1', '2', '3', '4'] ['1', '2', '4', '3']) ∧
      posCountA ['1', '2', '3', '4'] ['1', '2', '4', '3'] = 2 ∧
      posCountB ['1', '2', '3', '4'] ['1', '2', '4', '3'] = 2 :=
  ⟨by decide, by decide, claim_C1 _ _ (by decide) (by decide), by decide, by decide⟩

/-- C2: for every secret and guess that are 4-character digit strings with
all-distinct digits, the `(A, B)` result of `evaluate_guess` satisfies
`0 ≤ A ≤ 4`, `0 ≤ B ≤ 4` and `A + B ≤ 4`. -/
theorem claim_C2 (s g : List Char) (hs : validCode s) (hg : validCode g)
    (a b : Nat) (h : evaluate_guess s g = Except.ok (a, b)) :
    0 ≤ a ∧ a ≤ 4 ∧ 0 ≤ b ∧ b ≤ 4 ∧ a + b ≤ 4 := by
  rw [evaluate_guess_ok s g hs.1 hg.1] at h
  have hab : countA s g = a ∧ countB s g = b := by
    have h' := h
    simp only [Except.ok.injEq, Prod.mk.injEq] at h'
    exact h'
  obtain ⟨ha, hb⟩ := hab
  have hsum := countA_add_countB s g
  have hle : (s.zip g).countP (fun p => decide (p.2 ∈ s)) ≤ (s.zip g).length :=
    List.countP_le_length _
  have hlen : (s.zip g).length = 4 := by
    rw [List.length_zip, hs.1, hg.1]
    simp
  omega

theorem claim_C2_witness :
    validCode ['1', '2', '3', '4'] ∧ validCode ['5', '6', '7', '8'] ∧
      evaluate_guess ['1', '2', '3', '4'] ['5', '6', '7', '8'] = Except.ok (0, 0) ∧
      (0 ≤ (0 : Nat) ∧ (0 : Nat) ≤ 4 ∧ 0 ≤ (0 : Nat) ∧ (0 : Nat) ≤ 4 ∧ 0 + 0 ≤ 4) :=
  ⟨by decide, by decide, by rfl,
    claim_C2 ['1', '2', '3', '4'] ['5', '6', '7', '8'] (by decide) (by decide) 0 0 (by rfl)⟩

/-- C3: for every valid 4-character unique-digit string `S`, evaluating `S`
against itself yields `(4, 0)`, both through the general positional scan of
`evaluate_guess` and through the `secret == guess` fast path of the `/guess`
endpoint. -/
theorem claim_C3 (s : List Char) (h : validCode s) :
    evaluate_guess s s = Except.ok (4, 0) ∧
      evaluate_guess_endpoint s s = Except.ok (4, 0) := by
  refine ⟨evaluate_guess_self s h.1, ?_⟩
  unfold evaluate_guess_endpoint
  rw [if_pos rfl]

theorem claim_C3_witness :
    validCode ['0', '1', '2', '3'] ∧
      evaluate_guess ['0', '1', '2', '3'] ['0', '1', '2', '3'] = Except.ok (4, 0) ∧
      evaluate_guess_endpoint ['0', '1', '2', '3'] ['0', '1', '2', '3'] = Except.ok (4, 0) :=
  ⟨by decide, claim_C3 _ (by decide)⟩

/-- C4: `evaluate_guess` raises a length-mismatch error if and only if not
both inputs have length 4; for any two length-4 strings (even with repeated
digits or non-digit characters) it returns a numeric `(A, B)` score and
never re-checks digit-uniqueness. -/
theorem claim_C4 (s g : List Char) :
    ((∃ p : Nat × Nat, evaluate_guess s g = Except.ok p) ↔
        s.length = 4 ∧ g.length = 4) ∧
    ((∃ e, evaluate_guess s g = Except.error e) ↔
        ¬(s.length = 4 ∧ g.length = 4)) := by
  unfold evaluate_guess
  by_cases h : s.length = 4 ∧ g.length = 4
  · rw [if_neg (by omega)]
    constructor
    · simp [h]
    · constructor
      · rintro ⟨e, he⟩
        cases he
      · intro hc
        exact absurd h hc
  · rw [if_pos (by omega)]
    constructor
    · constructor
      · rintro ⟨p, hp⟩
        cases hp
      · intro hc
        exact absurd hc h
    · constructor
      · intro _
        exact h
      · intro _
        exact ⟨_, rfl⟩

/-- C5: a request in which secret or guess has fewer than 4 distinct
characters is rejected by the `GuessRequest` validation boundary with an
error and never produces a numeric score. -/
theorem claim_C5 (secret guess : List Char)
    (h : secret.dedup.length < 4 ∨ guess.dedup.length < 4) :
    ∃ e, guess_request_pipeline secret guess = Except.error e := by
  have key : ∀ v : List Char, v.dedup.length < 4 →
      ∃ e, validateField v = Except.error e := by
    intro v hv
    unfold validateField
    by_cases h1 : fieldShapeOk v
    · have hlen : v.length = 4 := by
        unfold fieldShapeOk at h1
        simp at h1
        exact h1.1
      rw [if_neg (not_not_intro h1)]
      unfold digits_must_be_unique
      rw [if_pos (by omega)]
      exact ⟨_, rfl⟩
    · rw [if_pos h1]
      exact ⟨_, rfl⟩
  rcases h with h | h
  · obtain ⟨e, he⟩ := key secret h
    exact ⟨e, by simp [guess_request_pipeline, he]⟩
  · rcases hres : validateField secret with e | s'
    · exact ⟨e, by simp [guess_request_pipeline, hres]⟩
    · obtain ⟨e, he⟩ := key guess h
      exact ⟨e, by simp [guess_request_pipeline, hres, he]⟩

theorem claim_C5_witness :
    ((['1', '1', '2', '3'] : List Char).dedup.length < 4 ∨
        (['0', '1', '2', '3'] : List Char).dedup.length < 4) ∧
      ∃ e, guess_request_pipeline ['1', '1', '2', '3'] ['0', '1', '2', '3'] =
        Except.error e :=
  ⟨by decide, claim_C5 ['1', '1', '2', '3'] ['0', '1', '2', '3'] (by decide)⟩

/-- C6: every possible output of `generate_secret_number` — the rendering
of any 4-element sample of distinct values from `{0, ..., 9}` — is a
4-character string of decimal digits with no repeated character. -/
theorem claim_C6 (digits : List Nat) (h : sampleOk digits) :
    validCode (render_digits digits) := by
  obtain ⟨h4, hnodup, hlt⟩ := h
  have hdig : ∀ d < 10, (Nat.digitChar d).isDigit = true := by decide
  have hinj : ∀ x < 10, ∀ y < 10, Nat.digitChar x = Nat.digitChar y → x = y := by decide
  refine ⟨by simp [render_digits, h4], ?_, ?_⟩
  · intro c hc
    simp only [render_digits, List.mem_map] at hc
    obtain ⟨d, hd, rfl⟩ := hc
    exact hdig d (hlt d hd)
  · exact hnodup.map_on fun x hx y hy hxy => hinj x (hlt x hx) y (hlt y hy) hxy

theorem claim_C6_witness :
    sampleOk [0, 1, 2, 3] ∧ validCode (render_digits [0, 1, 2, 3]) :=
  ⟨⟨by decide, by decide, by decide⟩, claim_C6 [0, 1, 2, 3] ⟨by decide, by decide, by decide⟩⟩

/-- C7: for 4-character strings, the `A` component of `evaluate_guess`
equals 4 exactly when secret and guess coincide, so the terminal loop's
`a == 4` exit fires exactly on the correct guess, and the endpoint's
`secret == guess` fast path agrees with the general path. -/
theorem claim_C7 (s g : List Char) (hs : s.length = 4) (hg : g.length = 4)
    (a b : Nat) (h : evaluate_guess s g = Except.ok (a, b)) :
    (a = 4 ↔ s = g) ∧ evaluate_guess_endpoint s g = evaluate_guess s g := by
  constructor
  · rw [evaluate_guess_ok s g hs hg] at h
    have ha : countA s g = a := by
      have h' := h
      simp only [Except.ok.injEq, Prod.mk.injEq] at h'
      exact h'.1
    subst ha
    obtain ⟨a1, b1, c1, d1, rfl⟩ := length_four s hs
    obtain ⟨e1, f1, u1, v1, rfl⟩ := length_four g hg
    simp only [countA, List.zip_cons_cons, List.zip_nil_right, List.countP_cons,
      List.countP_nil, List.cons.injEq, and_true]
    split_ifs <;> simp_all
  · unfold evaluate_guess_endpoint
    by_cases hsg : s = g
    · rw [if_pos hsg, hsg, evaluate_guess_self g hg]
    · rw [if_neg hsg]

theorem claim_C7_witness :
    (['1', '2', '3', '4'] : List Char).length = 4 ∧
      evaluate_guess ['1', '2', '3', '4'] ['1', '2', '3', '4'] = Except.ok (4, 0) ∧
      ((4 = 4 ↔ (['1', '2', '3', '4'] : List Char) = ['1', '2', '3', '4']) ∧
        evaluate_guess_endpoint ['1', '2', '3', '4'] ['1', '2', '3', '4'] =
          evaluate_guess ['1', '2', '3', '4'] ['1', '2', '3', '4']) :=
  ⟨by decide, by rfl,
    claim_C7 ['1', '2', '3', '4'] ['1', '2', '3', '4'] (by decide) (by decide) 4 0 (by rfl)⟩

/-- C8: for secrets and guesses that are 4-character strings with
all-distinct characters, `evaluate_guess` is symmetric in its two
arguments. -/
theorem claim_C8 (s g : List Char) (hs4 : s.length = 4) (hg4 : g.length = 4)
    (hsn : s.Nodup) (hgn : g.Nodup) :
    evaluate_guess s g = evaluate_guess g s := by
  rw [evaluate_guess_ok s g hs4 hg4, evaluate_guess_ok g s hg4 hs4,
    countA_comm s g, countB_comm s g (hs4.trans hg4.symm) hsn hgn]

theorem claim_C8_witness :
    (['1', '2', '3', '4'] : List Char).length = 4 ∧
      (['4', '3', '2', '1'] : List Char).length = 4 ∧
      (['1', '2', '3', '4'] : List Char).Nodup ∧
      (['4', '3', '2', '1'] : List Char).Nodup ∧
      evaluate_guess ['1', '2', '3', '4'] ['4', '3', '2', '1'] =
        evaluate_guess ['4', '3', '2', '1'] ['1', '2', '3', '4'] :=
  ⟨by decide, by decide, by decide, by decide,
    claim_C8 ['1', '2', '3', '4'] ['4', '3', '2', '1']
      (by decide) (by decide) (by decide) (by decide)⟩

/-- C9: `evaluate_guess` is deterministic and repeatable: the result
depends only on the two argument strings, so two calls on equal arguments
yield identical results. -/
theorem claim_C9 (s g s' g' : List Char) (hs : s = s') (hg : g = g') :
    evaluate_guess s g = evaluate_guess s' g' := by
  rw [hs, hg]

theorem claim_C9_witness :
    (['1', '2', '3', '4'] : List Char) = ['1', '2', '3', '4'] ∧
      (['1', '2', '4', '3'] : List Char) = ['1', '2', '4', '3'] ∧
      evaluate_guess ['1', '2', '3', '4'] ['1', '2', '4', '3'] =
        evaluate_guess ['1', '2', '3', '4'] ['1', '2', '4', '3'] :=
  ⟨rfl, rfl, claim_C9 ['1', '2', '3', '4'] ['1', '2', '4', '3'] _ _ rfl rfl⟩

/-- C10: one iteration of the terminal loop rejects (with a message, and
without consuming an attempt) any input that is not 4 characters, not all
digits, or without 4 distinct digits; on valid input it increments the
attempt counter by exactly 1, prints `Result: {a}A{b}B`, and breaks —
printing the completion message with the attempt count — exactly when
`a == 4`. -/
theorem claim_C10 (secret : List Char) (hsec : secret.length = 4)
    (attempts : Nat) (guess : List Char) :
    (¬(guess.length = 4 ∧ str_isdigit guess = true ∧ guess.dedup.length = 4) →
      play_step secret attempts guess =
        Except.ok ⟨attempts, ["Invalid input. Please enter four unique digits."], false⟩) ∧
    ((guess.length = 4 ∧ str_isdigit guess = true ∧ guess.dedup.length = 4) →
      ∃ a b, evaluate_guess secret guess = Except.ok (a, b) ∧
        play_step secret attempts guess =
          Except.ok ⟨attempts + 1,
            resultLine a b :: (if a = 4 then [winLine (attempts + 1)] else []),
            decide (a = 4)⟩) := by
  constructor
  · intro h
    unfold play_step
    rw [if_pos (by tauto)]
  · rintro ⟨h1, h2, h3⟩
    have hok := evaluate_guess_ok secret guess hsec h1
    refine ⟨countA secret guess, countB secret guess, hok, ?_⟩
    unfold play_step
    rw [if_neg (by simp [h1, h2, h3])]
    rw [hok]
    by_cases h4 : countA secret guess = 4
    · simp [h4]
    · simp [h4]

theorem claim_C10_witness :
    (['1', '2', '3', '4'] : List Char).length = 4 ∧
      ((¬((['1', '2', '4', '3'] : List Char).length = 4 ∧
            str_isdigit ['1', '2', '4', '3'] = true ∧
            (['1', '2', '4', '3'] : List Char).dedup.length = 4) →
          play_step ['1', '2', '3', '4'] 0 ['1', '2', '4', '3'] =
            Except.ok ⟨0, ["Invalid input. Please enter four unique digits."], false⟩) ∧
        (((['1', '2', '4', '3'] : List Char).length = 4 ∧
            str_isdigit ['1', '2', '4', '3'] = true ∧
            (['1', '2', '4', '3'] : List Char).dedup.length = 4) →
          ∃ a b, evaluate_guess ['1', '2', '3', '4'] ['1', '2', '4', '3'] =
              Except.ok (a, b) ∧
            play_step ['1', '2', '3', '4'] 0 ['1', '2', '4', '3'] =
              Except.ok ⟨0 + 1,
                resultLine a b :: (if a = 4 then [winLine (0 + 1)] else []),
                decide (a = 4)⟩)) :=
  ⟨by decide, claim_C10 ['1', '2', '3', '4'] (by decide) 0 ['1', '2', '4', '3']⟩

end Game1A2B
